import Mathlib

/-
Verification development for the market-appetite backend
(src/backend/sentiment_analyzer.py and src/backend/app.py).

The Python code is shallowly embedded: pure data transformations become Lean
functions over lists, rationals stand for Python floats (arithmetic is exact;
Python rounds with round-half-to-even, modelled by roundHalfEven below),
fallible calls become Option/sum-typed values, and the external collaborators
(NEWS API, the transformers sentiment pipeline, the filesystem, threads) are
parameters of the embedded functions.
-/

namespace MarketAppetite

/-- A raw article as returned by the NEWS API and consumed by the pipeline:
`title`, `description`, `url`, and `source.name` (sentiment_analyzer.py,
process_articles reads exactly these fields with `.get`). -/
structure RawArticle where
  title : String
  description : String
  url : String
  source_name : String
  deriving DecidableEq, Repr

/-!
Deduplication (sentiment_analyzer.py line 198):
`unique_articles = {a['url']: a for a in all_articles}.values()`.
A Python dict comprehension keeps keys in first-insertion order and the value
for each key is the last one written.  `firstKeys` computes the key order,
`lastWithUrl` the winning value per key, `dedupe` the `.values()` view.
-/

/-- Keys of a Python dict built by insertion: first-occurrence order. -/
def firstKeys : List String → List String
  | [] => []
  | u :: rest => u :: (firstKeys rest).filter (fun v => v != u)

/-- The value stored under key `u`: the last article of `l` whose url is `u`
(later insertions overwrite earlier ones). -/
def lastWithUrl (l : List RawArticle) (u : String) : Option RawArticle :=
  l.reverse.find? (fun a => a.url == u)

/-- `{a['url']: a for a in all_articles}.values()` -/
def dedupe (l : List RawArticle) : List RawArticle :=
  (firstKeys (l.map (fun a => a.url))).filterMap (lastWithUrl l)


/-!
Sentiment classification (sentiment_analyzer.py, analyze_sentiment and
process_articles).  The transformers pipeline is an external capability:
`self.sentiment_pipeline` is `None` when model loading failed (modelled by
`Option`), and a loaded pipeline, applied to a text, either returns a
`label`/`score` pair or raises (modelled by `ClassifierResult`).
-/

/-- Outcome of one call to the loaded sentiment pipeline. -/
inductive ClassifierResult where
  | ok (label : String) (score : ℚ)
  | raises
  deriving DecidableEq

/-- `analyze_sentiment` (lines 115-137): returns `None` when the pipeline is
unavailable or the text is empty; otherwise truncates the text to 512
characters, calls the pipeline, maps POSITIVE to (1, score), NEGATIVE to
(-1, score), any other label to (0, 0.5); an exception from the pipeline is
caught and also yields (0, 0.5). -/
def analyze_sentiment (pipeline : Option (String → ClassifierResult))
    (text : String) : Option (ℤ × ℚ) :=
  match pipeline with
  | none => none
  | some p =>
    if text = "" then none
    else
      match p (text.take 512) with
      | .ok label score =>
        if label = "POSITIVE" then some (1, score)
        else if label = "NEGATIVE" then some (-1, score)
        else some (0, 1/2)
      | .raises => some (0, 1/2)

/-- One entry of the `sentiments` list built by `process_articles`
(the wall-clock `timestamp` field is not modelled). -/
structure ClassifiedArticle where
  title : String
  url : String
  source : String
  sentiment : ℤ
  confidence : ℚ
  deriving DecidableEq

/-- `process_articles` (lines 139-180): for each article, classify
`f"{title} {description}"`; keep the article only when `analyze_sentiment`
returned a result. -/
def process_articles (pipeline : Option (String → ClassifierResult))
    (articles : List RawArticle) : List ClassifiedArticle :=
  articles.filterMap (fun article =>
    (analyze_sentiment pipeline (article.title ++ " " ++ article.description)).map
      (fun sc =>
        { title := article.title
          url := article.url
          source := article.source_name
          sentiment := sc.1
          confidence := sc.2 }))

/-!
Per-category statistics (sentiment_analyzer.py, categorize_and_analyze lines
203-236).  Python floats are modelled by exact rationals; `round(x, d)` is
round-half-to-even at `d` decimal digits.
-/

/-- Round to the nearest integer, ties to the even integer
(the rounding mode of Python `round`). -/
def roundHalfEven (q : ℚ) : ℤ :=
  let f : ℤ := ⌊q⌋
  if q - f < 1/2 then f
  else if 1/2 < q - f then f + 1
  else if f % 2 = 0 then f else f + 1

/-- Python `round(q, d)`. -/
def roundTo (d : ℕ) (q : ℚ) : ℚ := (roundHalfEven (q * 10 ^ d) : ℚ) / 10 ^ d

/-- The per-category record built by `categorize_and_analyze`. -/
structure CategoryStats where
  positive_count : ℕ
  positive_pct : ℚ
  negative_count : ℕ
  negative_pct : ℚ
  neutral_count : ℕ
  neutral_pct : ℚ
  total_mentions : ℕ
  avg_confidence : ℚ
  articles : List ClassifiedArticle
  deriving DecidableEq

/-- The all-zero record assigned when a category yields no sentiments
(lines 226-236). -/
def zeroStats : CategoryStats :=
  { positive_count := 0, positive_pct := 0, negative_count := 0, negative_pct := 0
    neutral_count := 0, neutral_pct := 0, total_mentions := 0, avg_confidence := 0
    articles := [] }

/-- Statistics rollup (lines 203-236): counts of rows with sentiment > 0,
< 0, == 0; percentages `round((count / total * 100) if total > 0 else 0, 2)`;
`avg_confidence = round(mean(confidence), 3)`; `articles = sentiments[:10]`. -/
def categoryStats (sentiments : List ClassifiedArticle) : CategoryStats :=
  if sentiments = [] then zeroStats
  else
    let positive := (sentiments.filter (fun s => decide (0 < s.sentiment))).length
    let negative := (sentiments.filter (fun s => decide (s.sentiment < 0))).length
    let neutral := (sentiments.filter (fun s => decide (s.sentiment = 0))).length
    let total := sentiments.length
    { positive_count := positive
      positive_pct := roundTo 2 (if 0 < total then (positive : ℚ) / total * 100 else 0)
      negative_count := negative
      negative_pct := roundTo 2 (if 0 < total then (negative : ℚ) / total * 100 else 0)
      neutral_count := neutral
      neutral_pct := roundTo 2 (if 0 < total then (neutral : ℚ) / total * 100 else 0)
      total_mentions := total
      avg_confidence := roundTo 3 ((sentiments.map (fun s => s.confidence)).sum / total)
      articles := sentiments.take 10 }

/-!
News fetching (sentiment_analyzer.py, fetch_news lines 85-113).  One call to
the NEWS API, for one keyword, either yields a JSON body whose optional
`articles` field is read with `data.get('articles', [])`, or raises a
`requests.exceptions.RequestException` — network failure, timeout, the
`raise_for_status()` of a rate-limit or error status, or a malformed JSON
body — which the handler turns into `[]`.
-/

/-- Outcome of one NEWS API request. -/
inductive FetchOutcome where
  | success (articlesField : Option (List RawArticle))
  | requestError
  deriving DecidableEq

/-- `fetch_news`: the list the function returns for one keyword. -/
def fetch_news : FetchOutcome → List RawArticle
  | .success f => f.getD []
  | .requestError => []

/-- The body of the per-category loop of `categorize_and_analyze`
(lines 188-236): concatenate the per-keyword fetches, deduplicate, classify,
roll up statistics.  `outcomes` lists the network outcome of each keyword
query in keyword order. -/
def runCategory (pipeline : Option (String → ClassifierResult))
    (outcomes : List FetchOutcome) : CategoryStats :=
  categoryStats (process_articles pipeline (dedupe ((outcomes.map fetch_news).flatten)))

/-- `self.asset_categories` (sentiment_analyzer.py lines 30-62), in the
dict insertion order of the source. -/
def asset_categories : List (String × List String) :=
  [("techs",
    ["Apple", "Microsoft", "Google", "Amazon", "Tesla",
     "NVIDIA", "Meta", "Intel", "AMD", "Qualcomm",
     "AAPL", "MSFT", "GOOGL", "AMZN", "TSLA",
     "tech", "technology", "smartphone", "cloud",
     "artificial intelligence", "AI", "machine learning"]),
   ("criptos",
    ["Bitcoin", "Ethereum", "BTC", "ETH", "Cardano", "ADA",
     "Solana", "SOL", "Polkadot", "DOT", "Ripple", "XRP",
     "Dogecoin", "DOGE", "cryptocurrency", "crypto", "blockchain",
     "DeFi", "NFT", "Web3", "token", "altcoin", "Bitcoin Cash",
     "Litecoin", "LTC", "Monero", "XMR"]),
   ("gold",
    ["ouro", "gold", "GLD", "aurum", "precious metals",
     "ouro spot", "bullion", "onça de ouro", "troy ounce gold",
     "commodity oro", "mercado de ouro", "preço do ouro",
     "gold price", "gold market", "investimento ouro",
     "GOLDBEES", "EFT ouro"]),
   ("silver",
    ["prata", "silver", "SLV", "argentum", "prata spot",
     "prata bullion", "onça de prata", "troy ounce silver",
     "commodity plata", "mercado de prata", "preço da prata",
     "silver price", "silver market", "investimento prata",
     "SILVERBEES"]),
   ("energias_renovaveis",
    ["NextEra", "solar", "eólica", "renewable energy"])]

/-- `categorize_and_analyze` (lines 182-238): one `results[category]` entry
per configured category, in configuration order.  `env` gives the network
outcome of the query for each keyword of each category. -/
def categorize_and_analyze (pipeline : Option (String → ClassifierResult))
    (env : String → FetchOutcome) : List (String × CategoryStats) :=
  asset_categories.map (fun c => (c.1, runCategory pipeline (c.2.map env)))

/-!
Asset ranking (sentiment_analyzer.py, identify_top_assets lines 240-299).
`asset_stats` is a `defaultdict` keyed by keyword string — modelled as an
association list in first-access order, with in-place update on existing keys
(Python dict semantics).
-/

/-- The mutable per-keyword accumulator of `identify_top_assets`. -/
structure AssetAcc where
  mentions : ℕ
  positive : ℕ
  negative : ℕ
  sentiment_score : ℤ
  deriving DecidableEq

/-- The `defaultdict` initial value (line 242-247). -/
def emptyAcc : AssetAcc := ⟨0, 0, 0, 0⟩

/-- `asset_stats`, as an insertion-ordered association list. -/
abbrev AssetMap := List (String × AssetAcc)

/-- Dict lookup with the defaultdict default. -/
def getAcc : AssetMap → String → AssetAcc
  | [], _ => emptyAcc
  | e :: rest, k => if e.1 = k then e.2 else getAcc rest k

/-- Dict assignment: overwrite in place if the key exists, else append. -/
def setAcc : AssetMap → String → AssetAcc → AssetMap
  | [], k, v => [(k, v)]
  | e :: rest, k, v => if e.1 = k then (k, v) :: rest else e :: setAcc rest k v

/-- The per-match update (lines 256-263): increment mentions, bump
positive/negative by the sign of the article sentiment, accumulate the
sentiment sum. -/
def bumpAcc (acc : AssetAcc) (s : ℤ) : AssetAcc :=
  { mentions := acc.mentions + 1
    positive := if 0 < s then acc.positive + 1 else acc.positive
    negative := if s < 0 then acc.negative + 1 else acc.negative
    sentiment_score := acc.sentiment_score + s }

/-- The flattened keyword iteration of lines 253-254:
`for asset_list in self.asset_categories.values(): for asset in asset_list`. -/
def allKeywords : List String := (asset_categories.map (fun c => c.2)).flatten

/-- Python `str.lower()` as a character-wise case map (the configured
keywords and titles only need the ASCII range, where the two agree). -/
def lowerChars (s : String) : List Char := s.toList.map Char.toLower

/-- `needle` is an initial segment of `hay`. -/
def startsWith : List Char → List Char → Bool
  | [], _ => true
  | _ :: _, [] => false
  | c :: cs, d :: ds => c == d && startsWith cs ds

/-- Python `needle in hay` on strings: contiguous-subsequence containment
(the empty needle is contained in everything). -/
def containsSeq (needle : List Char) : List Char → Bool
  | [] => needle.isEmpty
  | d :: rest => startsWith needle (d :: rest) || containsSeq needle rest

/-- `asset.lower() in article['title'].lower()` (line 255): case-insensitive
substring containment. -/
def matchesTitle (kw title : String) : Bool :=
  containsSeq (lowerChars kw) (lowerChars title)

/-- The inner keyword scan over one article (lines 253-263). -/
def scanArticle (m : AssetMap) (a : ClassifiedArticle) : AssetMap :=
  allKeywords.foldl
    (fun m kw =>
      if matchesTitle kw a.title then setAcc m kw (bumpAcc (getAcc m kw) a.sentiment)
      else m) m

/-- The accumulation loop of `identify_top_assets` (lines 249-263): every
article of every category's `articles` sample, in category order. -/
def collectAssetStats (all_data : List (String × CategoryStats)) : AssetMap :=
  all_data.foldl (fun m cd => cd.2.articles.foldl scanArticle m) []

/-- One entry of `assets_list` (lines 266-278). -/
structure AssetStat where
  asset : String
  mentions : ℕ
  positive : ℕ
  negative : ℕ
  sentiment_avg : ℚ
  deriving DecidableEq

/-- Conversion of one accumulator to an `assets_list` entry:
`sentiment_avg = round(score / mentions, 3) if mentions > 0 else 0`. -/
def toAssetStat (e : String × AssetAcc) : AssetStat :=
  { asset := e.1
    mentions := e.2.mentions
    positive := e.2.positive
    negative := e.2.negative
    sentiment_avg :=
      if 0 < e.2.mentions then roundTo 3 ((e.2.sentiment_score : ℚ) / e.2.mentions)
      else 0 }

/-- `assets_list` (lines 266-278): only keywords with `mentions > 0`. -/
def assetsList (m : AssetMap) : List AssetStat :=
  (m.filter (fun e => decide (0 < e.2.mentions))).map toAssetStat

/-- Stable ascending insertion by key, matching Python `sorted` stability:
a later element goes after earlier elements with an equal key. -/
def insertAsc (key : AssetStat → ℚ) (x : AssetStat) : List AssetStat → List AssetStat
  | [] => [x]
  | y :: ys => if key y ≤ key x then y :: insertAsc key x ys else x :: y :: ys

/-- Stable `sorted(l, key=key)`. -/
def sortAsc (key : AssetStat → ℚ) (l : List AssetStat) : List AssetStat :=
  l.foldl (fun acc x => insertAsc key x acc) []

/-- Stable descending insertion: `sorted(l, key=key, reverse=True)` keeps the
original order among equal keys. -/
def insertDesc (key : AssetStat → ℚ) (x : AssetStat) : List AssetStat → List AssetStat
  | [] => [x]
  | y :: ys => if key x ≤ key y then y :: insertDesc key x ys else x :: y :: ys

/-- Stable `sorted(l, key=key, reverse=True)`. -/
def sortDesc (key : AssetStat → ℚ) (l : List AssetStat) : List AssetStat :=
  l.foldl (fun acc x => insertDesc key x acc) []

/-- The four leaderboards returned by `identify_top_assets` (lines 280-299). -/
structure TopAssets where
  most_talked : List AssetStat
  least_talked : List AssetStat
  most_positive : List AssetStat
  most_negative : List AssetStat
  deriving DecidableEq

/-- `identify_top_assets` (lines 240-299). -/
def identify_top_assets (all_data : List (String × CategoryStats)) : TopAssets :=
  let l := assetsList (collectAssetStats all_data)
  { most_talked := (sortDesc (fun a => (a.mentions : ℚ)) l).take 10
    least_talked := (sortAsc (fun a => (a.mentions : ℚ)) l).take 10
    most_positive := (sortDesc (fun a => a.sentiment_avg) l).take 10
    most_negative := (sortAsc (fun a => a.sentiment_avg) l).take 10 }

/-!
Report assembly (sentiment_analyzer.py, generate_report lines 301-329).
-/

/-- One `market_sentiment[category]` entry (lines 314-324). -/
structure CategorySummary where
  positive : ℚ
  negative : ℚ
  neutral : ℚ
  total_mentions : ℕ
  avg_confidence : ℚ
  articles_count : ℕ
  deriving DecidableEq

/-- The summary projection of a category record (lines 315-322). -/
def summaryOf (d : CategoryStats) : CategorySummary :=
  { positive := d.positive_pct
    negative := d.negative_pct
    neutral := d.neutral_pct
    total_mentions := d.total_mentions
    avg_confidence := d.avg_confidence
    articles_count := d.positive_count + d.negative_count + d.neutral_count }

/-- The assembled report (lines 312-327).  `timestamp` is the wall clock at
generation, passed in as a parameter. -/
structure Report where
  timestamp : String
  market_sentiment : List (String × CategorySummary)
  top_assets : TopAssets
  detailed_category_data : List (String × CategoryStats)

/-- `generate_report` (lines 301-329). -/
def generate_report (pipeline : Option (String → ClassifierResult))
    (env : String → FetchOutcome) (ts : String) : Report :=
  let category_results := categorize_and_analyze pipeline env
  { timestamp := ts
    market_sentiment := category_results.map (fun cd => (cd.1, summaryOf cd.2))
    top_assets := identify_top_assets category_results
    detailed_category_data := category_results }

/-!
Concurrency model of app.py.  The module creates one
`analysis_lock = threading.Lock()`.  `scheduled_analysis` (lines 87-96) runs
`generate_report` and `save_report` inside `with analysis_lock:`;
`trigger_analysis`, the POST /api/analyze handler (lines 58-68), runs
`generate_report`, `save_report` and `print_summary` with no lock statement.
Each handler is embedded as its sequence of atomic events; a concurrent
execution is an interleaving of the two sequences that respects the lock.
-/

/-- Atomic events of the two pipeline entry points. -/
inductive Ev where
  | lock
  | unlock
  | beginRun
  | endRun
  | save
  deriving DecidableEq

/-- Event sequence of `trigger_analysis` (app.py lines 58-68): the pipeline
runs and the report is saved without ever touching `analysis_lock`. -/
def trigger_analysis : List Ev := [.beginRun, .endRun, .save]

/-- Event sequence of `scheduled_analysis` (app.py lines 87-96):
`with analysis_lock:` around the pipeline run and the save. -/
def scheduled_analysis : List Ev := [.lock, .beginRun, .endRun, .save, .unlock]

/-- `tr` is an interleaving of thread-A events `xs` and thread-B events `ys`
(each trace entry tags its thread: `true` = A). -/
def isInterleaving : List (Bool × Ev) → List Ev → List Ev → Bool
  | [], [], [] => true
  | (true, e) :: tr, x :: xs, ys => e == x && isInterleaving tr xs ys
  | (false, e) :: tr, xs, y :: ys => e == y && isInterleaving tr xs ys
  | _, _, _ => false

/-- Lock discipline along a trace: `lock` only succeeds when the lock is
free, `unlock` only by the holder (`threading.Lock` blocks otherwise). -/
def lockOk : Option Bool → List (Bool × Ev) → Bool
  | _, [] => true
  | none, (t, .lock) :: tr => lockOk (some t) tr
  | some _, (_, .lock) :: _ => false
  | some h, (t, .unlock) :: tr => h == t && lockOk none tr
  | none, (_, .unlock) :: _ => false
  | st, (_, .beginRun) :: tr => lockOk st tr
  | st, (_, .endRun) :: tr => lockOk st tr
  | st, (_, .save) :: tr => lockOk st tr

/-- Which threads are inside a pipeline run after one event. -/
def stepFlags (p : Bool × Bool) (e : Bool × Ev) : Bool × Bool :=
  match e with
  | (true, .beginRun) => (true, p.2)
  | (true, .endRun) => (false, p.2)
  | (false, .beginRun) => (p.1, true)
  | (false, .endRun) => (p.1, false)
  | _ => p

/-- Some moment of the trace has both threads inside a pipeline run. -/
def hasOverlap (tr : List (Bool × Ev)) : Bool :=
  (tr.scanl stepFlags (false, false)).any (fun p => p.1 && p.2)

/-- A lock-respecting trace: the scheduled run takes the lock and starts the
pipeline, then the manual trigger starts its own pipeline run while the lock
is still held. -/
def overlapTrace : List (Bool × Ev) :=
  [(true, .lock), (true, .beginRun), (false, .beginRun), (false, .endRun),
   (false, .save), (true, .endRun), (true, .save), (true, .unlock)]

/-!
Persistence model of `save_report` (sentiment_analyzer.py lines 331-340).
`open(filename, 'w')` truncates the target file in place; `json.dump`
streams the serialized report into it chunk by chunk.  An exception is caught
and turned into a `None` return; the function returns the filename on
success.  `chunks` is the serialized report split at the dump's write calls;
the possible failures are: `open` itself raises (file untouched), or the
dump raises after `k` chunks were written (file holds those `k` chunks).
-/

/-- Failure modes of one `save_report` call. -/
inductive WriteFailure where
  | openFailed
  | dumpFailed (k : ℕ)
  deriving DecidableEq

/-- Result of one `save_report` call: the file content afterwards and the
Python return value (`some filename` on success, `none` on the except path). -/
structure SaveOutcome where
  content : String
  returned : Option String
  deriving DecidableEq

/-- `save_report`: truncate-then-write in place, no temporary file, no rename. -/
def save_report (prev filename : String) (chunks : List String) :
    Option WriteFailure → SaveOutcome
  | none => { content := String.join chunks, returned := some filename }
  | some .openFailed => { content := prev, returned := none }
  | some (.dumpFailed k) => { content := String.join (chunks.take k), returned := none }

/-- The step of the keyword scan over one article. -/
def scanStep (a : ClassifiedArticle) (m : AssetMap) (kw : String) : AssetMap :=
  if matchesTitle kw a.title then setAcc m kw (bumpAcc (getAcc m kw) a.sentiment) else m

/-! Concrete inputs used to instantiate theorems with hypotheses. -/

/-- A loaded classifier whose every invocation raises. -/
def alwaysRaises : String → ClassifierResult := fun _ => ClassifierResult.raises

/-- A concrete raw article. -/
def artRaise : RawArticle :=
  { title := "Bitcoin up", description := "today", url := "http://a", source_name := "s" }

/-- A concrete classified article (positive, confidence 0.9). -/
def cWitness : ClassifiedArticle :=
  { title := "t", url := "u", source := "s", sentiment := 1, confidence := 9/10 }

/-- The article of the spec's AssetRanker test scenario. -/
def artBE : ClassifiedArticle :=
  { title := "Bitcoin and Ethereum surge", url := "http://b", source := "s"
    sentiment := 1, confidence := 9/10 }

/-! From here on: theorems about the embedded program. -/

theorem mem_firstKeys {v : String} : ∀ {xs : List String}, v ∈ firstKeys xs ↔ v ∈ xs := by
  intro xs
  induction xs with
  | nil => simp [firstKeys]
  | cons u rest ih =>
    simp only [firstKeys, List.mem_cons, List.mem_filter, ih, bne_iff_ne, ne_eq]
    constructor
    · rintro (rfl | ⟨h, _⟩)
      · exact Or.inl rfl
      · exact Or.inr h
    · rintro (rfl | h)
      · exact Or.inl rfl
      · by_cases hv : v = u
        · exact Or.inl hv
        · exact Or.inr ⟨h, hv⟩

theorem firstKeys_nodup : ∀ xs : List String, (firstKeys xs).Nodup
  | [] => List.nodup_nil
  | u :: rest => by
    simp only [firstKeys]
    rw [List.nodup_cons]
    refine ⟨?_, (firstKeys_nodup rest).filter _⟩
    intro hmem
    rw [List.mem_filter] at hmem
    simp at hmem

theorem lastWithUrl_url {l : List RawArticle} {u : String} {a : RawArticle}
    (h : lastWithUrl l u = some a) : a.url = u := by
  have := List.find?_some h
  exact eq_of_beq this

theorem lastWithUrl_eq_none {l : List RawArticle} {u : String}
    (h : u ∉ l.map (fun a => a.url)) : lastWithUrl l u = none := by
  rw [lastWithUrl, List.find?_eq_none]
  intro a ha hb
  rw [List.mem_reverse] at ha
  have : a.url ∈ l.map (fun a => a.url) := List.mem_map_of_mem (fun a => a.url) ha
  rw [beq_iff_eq.mp hb] at this
  exact h this

theorem filterMap_last_filter_not_mem (l : List RawArticle) (u : String) :
    ∀ ks : List String, u ∉ ks →
      ((ks.filterMap (lastWithUrl l)).filter (fun a => a.url == u)) = []
  | [], _ => rfl
  | k :: ks, h => by
    have hku : k ≠ u := fun e => h (e ▸ List.mem_cons_self k ks)
    have hks : u ∉ ks := fun e => h (List.mem_cons_of_mem k e)
    rw [List.filterMap_cons]
    cases hfk : lastWithUrl l k with
    | none => exact filterMap_last_filter_not_mem l u ks hks
    | some b =>
      rw [List.filter_cons]
      have hb : b.url = k := lastWithUrl_url hfk
      have hfalse : (b.url == u) = false := by
        rw [hb]
        exact beq_eq_false_iff_ne.mpr hku
      rw [hfalse]
      simp only [Bool.false_eq_true, if_false]
      exact filterMap_last_filter_not_mem l u ks hks

theorem filterMap_last_filter_mem (l : List RawArticle) (u : String) :
    ∀ ks : List String, ks.Nodup → u ∈ ks →
      ((ks.filterMap (lastWithUrl l)).filter (fun a => a.url == u)) = (lastWithUrl l u).toList
  | [], _, hm => absurd hm (List.not_mem_nil u)
  | k :: ks, hnd, hm => by
    rw [List.nodup_cons] at hnd
    rw [List.filterMap_cons]
    by_cases hk : u = k
    · subst hk
      cases hfk : lastWithUrl l u with
      | none =>
        rw [Option.toList_none]
        exact filterMap_last_filter_not_mem l u ks hnd.1
      | some b =>
        rw [List.filter_cons]
        have hb : (b.url == u) = true := beq_iff_eq.mpr (lastWithUrl_url hfk)
        rw [hb]
        simp only [if_true]
        rw [filterMap_last_filter_not_mem l u ks hnd.1, Option.toList_some]
    · have hm' : u ∈ ks := by
        rcases List.mem_cons.mp hm with h | h
        · exact absurd h hk
        · exact h
      cases hfk : lastWithUrl l k with
      | none => exact filterMap_last_filter_mem l u ks hnd.2 hm'
      | some b =>
        rw [List.filter_cons]
        have hfalse : (b.url == u) = false := by
          rw [lastWithUrl_url hfk]
          exact beq_eq_false_iff_ne.mpr (Ne.symm hk)
        rw [hfalse]
        simp only [Bool.false_eq_true, if_false]
        exact filterMap_last_filter_mem l u ks hnd.2 hm'

/-- The survivors of deduplication with a given url are exactly the last
article of the batch carrying that url. -/
theorem dedupe_filter_eq (l : List RawArticle) (u : String) :
    (dedupe l).filter (fun a => a.url == u) = (lastWithUrl l u).toList := by
  by_cases hm : u ∈ firstKeys (l.map (fun a => a.url))
  · exact filterMap_last_filter_mem l u _ (firstKeys_nodup _) hm
  · rw [dedupe, filterMap_last_filter_not_mem l u _ hm]
    rw [lastWithUrl_eq_none (fun hin => hm (mem_firstKeys.mpr hin)), Option.toList_none]

theorem map_url_filterMap_sublist (l : List RawArticle) :
    ∀ ks : List String, ((ks.filterMap (lastWithUrl l)).map (fun a => a.url)).Sublist ks
  | [] => List.Sublist.refl []
  | k :: ks => by
    rw [List.filterMap_cons]
    cases hfk : lastWithUrl l k with
    | none => exact (map_url_filterMap_sublist l ks).cons k
    | some b =>
      rw [List.map_cons, lastWithUrl_url hfk]
      exact (map_url_filterMap_sublist l ks).cons₂ k

/-- Deduplication output has pairwise-distinct urls. -/
theorem dedupe_urls_nodup (l : List RawArticle) :
    ((dedupe l).map (fun a => a.url)).Nodup :=
  (map_url_filterMap_sublist l _).nodup (firstKeys_nodup _)

/-- When the batch ends with article `b`, `b` is the unique survivor for its url. -/
theorem dedupe_append_last (l : List RawArticle) (b : RawArticle) :
    (dedupe (l ++ [b])).filter (fun a => a.url == b.url) = [b] := by
  rw [dedupe_filter_eq]
  have hlast : lastWithUrl (l ++ [b]) b.url = some b := by
    rw [lastWithUrl, List.reverse_append]
    simp [List.find?]
  rw [hlast, Option.toList_some]

theorem sign_filter_partition (l : List ClassifiedArticle) :
    (l.filter (fun s => decide (0 < s.sentiment))).length
      + (l.filter (fun s => decide (s.sentiment < 0))).length
      + (l.filter (fun s => decide (s.sentiment = 0))).length = l.length := by
  induction l with
  | nil => rfl
  | cons a t ih =>
    rcases lt_trichotomy a.sentiment 0 with h | h | h
    · have e1 : decide (0 < a.sentiment) = false := decide_eq_false (by omega)
      have e2 : decide (a.sentiment < 0) = true := decide_eq_true h
      have e3 : decide (a.sentiment = 0) = false := decide_eq_false (by omega)
      simp [List.filter_cons, e1, e2, e3]
      omega
    · have e1 : decide (0 < a.sentiment) = false := decide_eq_false (by omega)
      have e2 : decide (a.sentiment < 0) = false := decide_eq_false (by omega)
      have e3 : decide (a.sentiment = 0) = true := decide_eq_true h
      simp [List.filter_cons, e1, e2, e3]
      omega
    · have e1 : decide (0 < a.sentiment) = true := decide_eq_true h
      have e2 : decide (a.sentiment < 0) = false := decide_eq_false (by omega)
      have e3 : decide (a.sentiment = 0) = false := decide_eq_false (by omega)
      simp [List.filter_cons, e1, e2, e3]
      omega

theorem foldl_str_append : ∀ (l : List String) (s : String),
    l.foldl (fun r t => r ++ t) s = s ++ l.foldl (fun r t => r ++ t) "" := by
  intro l
  induction l with
  | nil => intro s; simp [List.foldl]
  | cons a t ih =>
    intro s
    simp only [List.foldl]
    rw [ih (s ++ a), ih ("" ++ a)]
    have h0 : ("" : String) ++ a = a := rfl
    rw [h0, String.append_assoc]

theorem join_cons (a : String) (t : List String) :
    String.join (a :: t) = a ++ String.join t := by
  simp only [String.join, List.foldl]
  rw [foldl_str_append t ("" ++ a)]
  rfl

theorem join_append (l1 l2 : List String) :
    String.join (l1 ++ l2) = String.join l1 ++ String.join l2 := by
  induction l1 with
  | nil =>
    have h : String.join ([] : List String) = "" := rfl
    rw [List.nil_append, h]
    rfl
  | cons a t ih =>
    rw [List.cons_append, join_cons, join_cons, ih, String.append_assoc]


/-! Dictionary lemmas for the asset accumulator map. -/

theorem getAcc_setAcc_self : ∀ (m : AssetMap) (k : String) (v : AssetAcc),
    getAcc (setAcc m k v) k = v
  | [], k, v => by simp [setAcc, getAcc]
  | e :: rest, k, v => by
    simp only [setAcc]
    by_cases h : e.1 = k
    · rw [if_pos h]
      simp [getAcc]
    · rw [if_neg h]
      simp only [getAcc]
      rw [if_neg h]
      exact getAcc_setAcc_self rest k v

theorem getAcc_setAcc_ne : ∀ (m : AssetMap) (k k' : String) (v : AssetAcc),
    k ≠ k' → getAcc (setAcc m k v) k' = getAcc m k'
  | [], k, k', v, h => by simp [setAcc, getAcc, h]
  | e :: rest, k, k', v, h => by
    simp only [setAcc]
    by_cases he : e.1 = k
    · rw [if_pos he]
      simp only [getAcc]
      rw [if_neg h, he, if_neg h]
    · rw [if_neg he]
      simp only [getAcc]
      by_cases he2 : e.1 = k'
      · rw [if_pos he2, if_pos he2]
      · rw [if_neg he2, if_neg he2]
        exact getAcc_setAcc_ne rest k k' v h


theorem scanArticle_eq_foldl (m : AssetMap) (a : ClassifiedArticle) :
    scanArticle m a = allKeywords.foldl (scanStep a) m := rfl

theorem scanStep_getAcc_ne (a : ClassifiedArticle) (m : AssetMap) (k kw : String)
    (h : k ≠ kw) : getAcc (scanStep a m k) kw = getAcc m kw := by
  rw [scanStep]
  by_cases hm : matchesTitle k a.title
  · rw [if_pos hm]
    exact getAcc_setAcc_ne m k kw _ h
  · rw [if_neg hm]

theorem scan_foldl_not_mem (a : ClassifiedArticle) (kw : String) :
    ∀ (ks : List String) (m : AssetMap), kw ∉ ks →
      getAcc (ks.foldl (scanStep a) m) kw = getAcc m kw
  | [], m, _ => rfl
  | k :: ks, m, h => by
    have hk : k ≠ kw := fun e => h (e ▸ List.mem_cons_self k ks)
    have hks : kw ∉ ks := fun e => h (List.mem_cons_of_mem k e)
    rw [List.foldl_cons, scan_foldl_not_mem a kw ks _ hks]
    exact scanStep_getAcc_ne a m k kw hk

theorem scan_foldl_mem (a : ClassifiedArticle) (kw : String)
    (hmatch : matchesTitle kw a.title = true) :
    ∀ (ks : List String) (m : AssetMap), ks.Nodup → kw ∈ ks →
      getAcc (ks.foldl (scanStep a) m) kw = bumpAcc (getAcc m kw) a.sentiment
  | [], _, _, hm => absurd hm (List.not_mem_nil kw)
  | k :: ks, m, hnd, hm => by
    rw [List.nodup_cons] at hnd
    rw [List.foldl_cons]
    by_cases hk : kw = k
    · subst hk
      rw [scan_foldl_not_mem a kw ks _ hnd.1]
      rw [scanStep, if_pos hmatch]
      exact getAcc_setAcc_self m kw _
    · have hm' : kw ∈ ks := by
        rcases List.mem_cons.mp hm with h | h
        · exact absurd h hk
        · exact h
      rw [scan_foldl_mem a kw hmatch ks _ hnd.2 hm']
      rw [scanStep_getAcc_ne a m k kw (fun e => hk e.symm)]

theorem scan_foldl_no_match (a : ClassifiedArticle) (kw : String)
    (hmatch : matchesTitle kw a.title = false) :
    ∀ (ks : List String) (m : AssetMap),
      getAcc (ks.foldl (scanStep a) m) kw = getAcc m kw
  | [], _ => rfl
  | k :: ks, m => by
    rw [List.foldl_cons, scan_foldl_no_match a kw hmatch ks _]
    by_cases hk : k = kw
    · subst hk
      rw [scanStep, hmatch]
      simp
    · exact scanStep_getAcc_ne a m k kw hk

/-- The configured keyword lists contain no repeated keyword string, so each
article/keyword match feeds exactly one accumulator bump. -/
theorem allKeywords_nodup : allKeywords.Nodup := by decide

/-! Helper facts for degraded runs. -/

theorem process_articles_pipeline_none (arts : List RawArticle) :
    process_articles none arts = [] := by
  induction arts with
  | nil => rfl
  | cons a t ih =>
    show List.filterMap _ (a :: t) = []
    rw [List.filterMap_cons]
    exact ih

theorem runCategory_all_request_errors
    (pipeline : Option (String → ClassifierResult)) (n : ℕ) :
    runCategory pipeline (List.replicate n FetchOutcome.requestError) = zeroStats := by
  have hflat : ((List.replicate n FetchOutcome.requestError).map fetch_news).flatten = [] := by
    induction n with
    | zero => rfl
    | succ k ih => simp [List.replicate_succ, fetch_news, ih]
  rw [runCategory, hflat]
  rfl

/-- The classification text `f"{title} {description}"` always contains the
separating space, hence is never empty. -/
theorem text_append_ne_empty (s t : String) : s ++ " " ++ t ≠ "" := by
  intro h
  have hlen : (s ++ " " ++ t).length = 0 := by rw [h]; rfl
  rw [String.length_append, String.length_append] at hlen
  have hone : (" " : String).length = 1 := rfl
  rw [hone] at hlen
  omega

/-! Claim theorems. -/

/-- Claim C1, counterexample: the claim that all empty-url articles survive
deduplication is false on the code — a batch of two articles with empty url
and different content keeps only the later one, because the dict
comprehension of line 198 uses the empty string as a key like any other. -/
theorem dedupe_empty_url_collapses :
    dedupe [{ title := "t1", description := "d1", url := "", source_name := "s" },
            { title := "t2", description := "d2", url := "", source_name := "s" }]
      = [{ title := "t2", description := "d2", url := "", source_name := "s" }] ∧
    ({ title := "t1", description := "d1", url := "", source_name := "s" } : RawArticle)
      ∉ dedupe [{ title := "t1", description := "d1", url := "", source_name := "s" },
                { title := "t2", description := "d2", url := "", source_name := "s" }] := by
  decide

/-- Claim C1, amended: articles with empty url ARE deduplicated against each
other, exactly like any shared url — of all the empty-url articles of a
per-category batch only the last one in batch order survives into the output
passed to classification. -/
theorem dedupe_empty_url_last_wins (l : List RawArticle) (b : RawArticle)
    (h : b.url = "") :
    (dedupe (l ++ [b])).filter (fun a => a.url == "") = [b] := by
  rw [← h]
  exact dedupe_append_last l b

/-- Witness for the amended claim C1 at a concrete batch. -/
theorem dedupe_empty_url_last_wins_witness :
    (dedupe ([{ title := "t1", description := "d1", url := "", source_name := "s" }]
        ++ [{ title := "t2", description := "d2", url := "", source_name := "s" }])).filter
        (fun a => a.url == "")
      = [{ title := "t2", description := "d2", url := "", source_name := "s" }] :=
  dedupe_empty_url_last_wins
    [{ title := "t1", description := "d1", url := "", source_name := "s" }]
    { title := "t2", description := "d2", url := "", source_name := "s" } rfl

/-- Claim C5: deduplication keeps exactly one article per distinct non-empty
url, and on duplicate non-empty urls the last article in batch order wins:
when the batch ends with article `b` of non-empty url, the output contains
exactly one article with that url, namely `b` itself — and no url at all is
ever present twice in the output. -/
theorem dedupe_last_wins_unique (l : List RawArticle) (b : RawArticle)
    (_h : b.url ≠ "") :
    (dedupe (l ++ [b])).filter (fun a => a.url == b.url) = [b] ∧
    ((dedupe (l ++ [b])).map (fun a => a.url)).Nodup :=
  ⟨dedupe_append_last l b, dedupe_urls_nodup _⟩

/-- Witness for claim C5: two articles with identical non-empty url and
different content; only the later one survives. -/
theorem dedupe_last_wins_unique_witness :
    (dedupe ([{ title := "t1", description := "d1", url := "http://x", source_name := "s" }]
        ++ [{ title := "t2", description := "d2", url := "http://x", source_name := "s" }])).filter
        (fun a => a.url == "http://x")
      = [{ title := "t2", description := "d2", url := "http://x", source_name := "s" }] ∧
    ((dedupe ([{ title := "t1", description := "d1", url := "http://x", source_name := "s" }]
        ++ [{ title := "t2", description := "d2", url := "http://x", source_name := "s" }])).map
        (fun a => a.url)).Nodup :=
  dedupe_last_wins_unique
    [{ title := "t1", description := "d1", url := "http://x", source_name := "s" }]
    { title := "t2", description := "d2", url := "http://x", source_name := "s" }
    (by decide)

/-- Claim C2, counterexample: with a loaded classifier that raises on the
article, the article is NOT skipped — `analyze_sentiment` catches the
exception and returns (0, 0.5), so the article is counted as one neutral
mention with confidence 0.5 in its category. -/
theorem classifier_raise_counts_article :
    ¬ (categoryStats (process_articles (some alwaysRaises) [artRaise])).total_mentions = 0 ∧
    (categoryStats (process_articles (some alwaysRaises) [artRaise])).total_mentions = 1 ∧
    (categoryStats (process_articles (some alwaysRaises) [artRaise])).neutral_count = 1 ∧
    (process_articles (some alwaysRaises) [artRaise]).map (fun c => c.confidence) = [1/2] := by
  refine ⟨by decide, by decide, by decide, ?_⟩
  show List.map _ (List.filterMap _ [artRaise]) = _
  rw [List.filterMap_cons]
  have hne : ("Bitcoin up" ++ " " ++ "today" : String) ≠ "" := by decide
  simp [analyze_sentiment, artRaise, alwaysRaises, hne]

/-- Claim C2, amended: an UNAVAILABLE classifier (pipeline not loaded) makes
every article skip — it contributes to no count; but a loaded classifier that
RAISES during classification does not skip the article: it is recorded as
neutral with confidence 0.5. -/
theorem classifier_unavailable_skips_raise_neutral
    (arts : List RawArticle) (p : String → ClassifierResult) (a : RawArticle)
    (hp : p ((a.title ++ " " ++ a.description).take 512) = ClassifierResult.raises) :
    process_articles none arts = [] ∧
    process_articles (some p) [a]
      = [{ title := a.title, url := a.url, source := a.source_name,
           sentiment := 0, confidence := 1/2 }] := by
  refine ⟨process_articles_pipeline_none arts, ?_⟩
  have hne : (a.title ++ " " ++ a.description) ≠ "" := text_append_ne_empty a.title a.description
  have h1 : analyze_sentiment (some p) (a.title ++ " " ++ a.description) = some (0, 1/2) := by
    show (if (a.title ++ " " ++ a.description) = "" then none else _) = _
    rw [if_neg hne, hp]
  show List.filterMap _ [a] = _
  rw [List.filterMap_cons, h1]
  rfl

/-- Witness for the amended claim C2. -/
theorem classifier_unavailable_skips_raise_neutral_witness :
    process_articles none [artRaise] = [] ∧
    process_articles (some alwaysRaises) [artRaise]
      = [{ title := artRaise.title, url := artRaise.url, source := artRaise.source_name,
           sentiment := 0, confidence := 1/2 }] :=
  classifier_unavailable_skips_raise_neutral [artRaise] alwaysRaises artRaise rfl

/-- Claim C3: the claim (manual and scheduled execution serialized under one
lock) is what app.py intends with `analysis_lock`, but `trigger_analysis`
never acquires the lock, so a lock-respecting interleaving exists in which
the manual pipeline run overlaps the scheduled one. -/
theorem manual_trigger_overlaps_scheduled :
    Ev.lock ∉ trigger_analysis ∧
    isInterleaving overlapTrace scheduled_analysis trigger_analysis = true ∧
    lockOk none overlapTrace = true ∧
    hasOverlap overlapTrace = true := by
  decide

/-- Claim C4, counterexample: a failure during `json.dump` leaves the file
holding a strict prefix of the new serialization — neither the previous
document nor a complete new one. -/
theorem save_report_partial_on_failure :
    (save_report "OLD" "market_sentiment_data.json" ["NEW1", "NEW2"]
        (some (WriteFailure.dumpFailed 1))).returned = none ∧
    ¬ (save_report "OLD" "market_sentiment_data.json" ["NEW1", "NEW2"]
        (some (WriteFailure.dumpFailed 1))).content = "OLD" ∧
    ¬ (save_report "OLD" "market_sentiment_data.json" ["NEW1", "NEW2"]
        (some (WriteFailure.dumpFailed 1))).content = String.join ["NEW1", "NEW2"] := by
  decide

/-- Claim C4, amended: on success the new report fully replaces the old
content (no merge); a failure of `open` leaves the previous document; but a
failure during the dump leaves exactly the first `k` written chunks — a
prefix of the new serialization, so persistence is NOT all-or-nothing. -/
theorem save_report_truncate_then_write (prev fn : String) (chunks : List String) (k : ℕ) :
    (save_report prev fn chunks none).content = String.join chunks ∧
    (save_report prev fn chunks none).returned = some fn ∧
    (save_report prev fn chunks (some WriteFailure.openFailed)).content = prev ∧
    (save_report prev fn chunks (some (WriteFailure.dumpFailed k))).content
        ++ String.join (chunks.drop k) = String.join chunks ∧
    (save_report prev fn chunks (some (WriteFailure.dumpFailed k))).returned = none := by
  refine ⟨rfl, rfl, rfl, ?_, rfl⟩
  show String.join (chunks.take k) ++ String.join (chunks.drop k) = String.join chunks
  rw [← join_append, List.take_append_drop]

/-- Claim C6: in every category result the positive, negative and neutral
counts partition the classified articles: their sum equals total_mentions. -/
theorem counts_partition_total (sentiments : List ClassifiedArticle) :
    (categoryStats sentiments).positive_count + (categoryStats sentiments).negative_count
        + (categoryStats sentiments).neutral_count
      = (categoryStats sentiments).total_mentions := by
  by_cases h : sentiments = []
  · subst h; rfl
  · simp only [categoryStats, if_neg h]
    exact sign_filter_partition sentiments

/-- Claim C7: a NEWS-source failure for one keyword (network failure, rate
limit via raise_for_status, malformed response body) degrades to zero
articles for that keyword, and the category's processing continues exactly as
if that keyword had fetched an empty list — no fetch-level error changes the
category result in any other way. -/
theorem fetch_error_degrades_to_empty (pipeline : Option (String → ClassifierResult))
    (pre post : List FetchOutcome) :
    fetch_news FetchOutcome.requestError = [] ∧
    runCategory pipeline (pre ++ FetchOutcome.requestError :: post)
      = runCategory pipeline (pre ++ FetchOutcome.success (some []) :: post) := by
  refine ⟨rfl, ?_⟩
  have hsame : ((pre ++ FetchOutcome.requestError :: post).map fetch_news).flatten
      = ((pre ++ FetchOutcome.success (some []) :: post).map fetch_news).flatten := by
    simp [fetch_news]
  rw [runCategory, runCategory, hsame]

/-- Claim C8: for a sampled article and any keyword of any category's list,
a case-insensitive substring match of the keyword against the article title
bumps exactly that keyword's accumulator: mentions + 1, positive/negative
incremented according to the polarity sign, sentiment sum accumulated — so
one article matching n keywords contributes one mention to each of the n. -/
theorem keyword_match_bumps_each (m : AssetMap) (a : ClassifiedArticle) (kw : String)
    (hmem : kw ∈ allKeywords) (hmatch : matchesTitle kw a.title = true) :
    getAcc (scanArticle m a) kw
      = { mentions := (getAcc m kw).mentions + 1
          positive := if 0 < a.sentiment then (getAcc m kw).positive + 1
            else (getAcc m kw).positive
          negative := if a.sentiment < 0 then (getAcc m kw).negative + 1
            else (getAcc m kw).negative
          sentiment_score := (getAcc m kw).sentiment_score + a.sentiment } := by
  rw [scanArticle_eq_foldl]
  exact scan_foldl_mem a kw hmatch allKeywords m allKeywords_nodup hmem

/-- Witness for claim C8: the spec's scenario — the title
"Bitcoin and Ethereum surge" bumps both "Bitcoin" and "Ethereum". -/
theorem keyword_match_bumps_each_witness :
    getAcc (scanArticle [] artBE) "Bitcoin"
      = { mentions := (getAcc ([] : AssetMap) "Bitcoin").mentions + 1
          positive := if 0 < artBE.sentiment then (getAcc ([] : AssetMap) "Bitcoin").positive + 1
            else (getAcc ([] : AssetMap) "Bitcoin").positive
          negative := if artBE.sentiment < 0 then (getAcc ([] : AssetMap) "Bitcoin").negative + 1
            else (getAcc ([] : AssetMap) "Bitcoin").negative
          sentiment_score := (getAcc ([] : AssetMap) "Bitcoin").sentiment_score + artBE.sentiment } ∧
    getAcc (scanArticle [] artBE) "Ethereum"
      = { mentions := (getAcc ([] : AssetMap) "Ethereum").mentions + 1
          positive := if 0 < artBE.sentiment then (getAcc ([] : AssetMap) "Ethereum").positive + 1
            else (getAcc ([] : AssetMap) "Ethereum").positive
          negative := if artBE.sentiment < 0 then (getAcc ([] : AssetMap) "Ethereum").negative + 1
            else (getAcc ([] : AssetMap) "Ethereum").negative
          sentiment_score := (getAcc ([] : AssetMap) "Ethereum").sentiment_score + artBE.sentiment } :=
  ⟨keyword_match_bumps_each [] artBE "Bitcoin" (by decide) (by decide),
   keyword_match_bumps_each [] artBE "Ethereum" (by decide) (by decide)⟩

/-- Claim C9: when a category has total_mentions = 0 all three percentages
and avg_confidence are exactly 0 (the division is guarded, never taken); when
total_mentions > 0, each percentage equals count/total*100 rounded to 2
decimals and avg_confidence is the mean of the confidences rounded to 3. -/
theorem pct_zero_guard_and_formula (ss : List ClassifiedArticle) :
    ((categoryStats ss).total_mentions = 0 →
      (categoryStats ss).positive_pct = 0 ∧ (categoryStats ss).negative_pct = 0 ∧
      (categoryStats ss).neutral_pct = 0 ∧ (categoryStats ss).avg_confidence = 0) ∧
    (0 < (categoryStats ss).total_mentions →
      (categoryStats ss).positive_pct
          = roundTo 2 (((categoryStats ss).positive_count : ℚ)
              / ((categoryStats ss).total_mentions : ℚ) * 100) ∧
      (categoryStats ss).negative_pct
          = roundTo 2 (((categoryStats ss).negative_count : ℚ)
              / ((categoryStats ss).total_mentions : ℚ) * 100) ∧
      (categoryStats ss).neutral_pct
          = roundTo 2 (((categoryStats ss).neutral_count : ℚ)
              / ((categoryStats ss).total_mentions : ℚ) * 100) ∧
      (categoryStats ss).avg_confidence
          = roundTo 3 ((ss.map (fun s => s.confidence)).sum
              / ((categoryStats ss).total_mentions : ℚ))) := by
  by_cases h : ss = []
  · subst h
    exact ⟨fun _ => ⟨rfl, rfl, rfl, rfl⟩, fun h0 => absurd h0 (by decide)⟩
  · have hpos : 0 < ss.length := List.length_pos.mpr h
    constructor
    · intro h0
      exfalso
      have hlen : ss.length = 0 := by
        simpa [categoryStats, if_neg h] using h0
      omega
    · intro _
      refine ⟨?_, ?_, ?_, ?_⟩ <;>
        simp [categoryStats, if_neg h, if_pos hpos]

/-- Witness for claim C9 at the empty list and at a one-article list. -/
theorem pct_zero_guard_and_formula_witness :
    ((categoryStats []).positive_pct = 0 ∧ (categoryStats []).negative_pct = 0 ∧
      (categoryStats []).neutral_pct = 0 ∧ (categoryStats []).avg_confidence = 0) ∧
    ((categoryStats [cWitness]).positive_pct
        = roundTo 2 (((categoryStats [cWitness]).positive_count : ℚ)
            / ((categoryStats [cWitness]).total_mentions : ℚ) * 100) ∧
      (categoryStats [cWitness]).negative_pct
        = roundTo 2 (((categoryStats [cWitness]).negative_count : ℚ)
            / ((categoryStats [cWitness]).total_mentions : ℚ) * 100) ∧
      (categoryStats [cWitness]).neutral_pct
        = roundTo 2 (((categoryStats [cWitness]).neutral_count : ℚ)
            / ((categoryStats [cWitness]).total_mentions : ℚ) * 100) ∧
      (categoryStats [cWitness]).avg_confidence
        = roundTo 3 (([cWitness].map (fun s => s.confidence)).sum
            / ((categoryStats [cWitness]).total_mentions : ℚ))) :=
  ⟨(pct_zero_guard_and_formula []).1 rfl,
   (pct_zero_guard_and_formula [cWitness]).2 (by decide)⟩

/-- Claim C10: the report's market_sentiment and detailed_category_data carry
one entry per configured category, in configuration order, whatever the
network and classifier do; and when every fetch fails each entry is the
all-zero record with an empty articles list. -/
theorem report_covers_all_categories (pipeline : Option (String → ClassifierResult))
    (env : String → FetchOutcome) (ts : String) :
    ((generate_report pipeline env ts).market_sentiment.map Prod.fst
        = asset_categories.map Prod.fst) ∧
    ((generate_report pipeline env ts).detailed_category_data.map Prod.fst
        = asset_categories.map Prod.fst) ∧
    (generate_report pipeline (fun _ => FetchOutcome.requestError) ts).detailed_category_data
        = asset_categories.map (fun c => (c.1, zeroStats)) ∧
    (generate_report pipeline (fun _ => FetchOutcome.requestError) ts).market_sentiment
        = asset_categories.map (fun c => (c.1, summaryOf zeroStats)) := by
  refine ⟨?_, ?_, ?_, ?_⟩
  · simp [generate_report, categorize_and_analyze, List.map_map, Function.comp]
  · simp [generate_report, categorize_and_analyze, List.map_map, Function.comp]
  · simp [generate_report, categorize_and_analyze, runCategory_all_request_errors]
  · simp [generate_report, categorize_and_analyze, List.map_map, Function.comp,
      runCategory_all_request_errors]

end MarketAppetite
